import Mathlib

/-!
Verification of the nest-crontab-gui scheduling engine.

This file gives a shallow embedding, in Lean 4, of the core of the
`nest-crontab-gui` repository and proves (or refutes) the specification
claims about it.  The embedded components are:

* the repeat-schedule parser (`src/services/schedule-parser.service.ts`,
  `parseRepeatInterval`);
* the retrying HTTP invoker (`src/services/http-client.service.ts`:
  `executeRequest`, `performRequest`, `processResponseBody`,
  `isRetryableError`, `createErrorResult`, `saveExecutionLog`);
* the scheduler dispatch path (`src/services/scheduler.service.ts`:
  `executeJob`, `executeJobAsync`'s finalizer, `removeJob`, `isJobRunning`,
  `executeJobManually`);
* the manual-trigger controller and its rate limiter
  (`src/controllers/job-execution.controller.ts`: `triggerJob`,
  `checkRateLimit`).

Modelling conventions: JavaScript strings are modelled as Lean `String`
or as `List Char` (one element per UTF-16-ish character); JS numbers used
as counters and timestamps are modelled as `Nat` or `Int`; `Promise`
rejection is modelled with `Except`; the network, the system clock and
the database are modelled as explicit environment parameters.
-/

/-! ## Schedule parser (`schedule-parser.service.ts`) -/

/-- JS `String.prototype.toLowerCase`, modelled characterwise. -/
def jsToLower (cs : List Char) : List Char := cs.map Char.toLower

/-- JS `String.prototype.trim`: strip whitespace from both ends. -/
def jsTrim (cs : List Char) : List Char :=
  (cs.dropWhile Char.isWhitespace).reverse.dropWhile Char.isWhitespace |>.reverse

/-- Numeric value of a digit list, as produced by JS `parseInt(s, 10)` on an
all-digit string (float imprecision on astronomically long inputs is not
modelled; it does not change any verdict of `parseRepeatInterval`). -/
def natOfDigits (ds : List Char) : Nat :=
  ds.foldl (fun n c => n * 10 + (c.toNat - 48)) 0

/-- Model of matching the regex `^(\d+)(s|m|h|d)$` (as in
`schedule-parser.service.ts` line 271): the whole string is a non-empty
run of ASCII digits followed by a single unit letter.  Returns the digit
group and the unit group on a match. -/
def matchRepeatPattern (cs : List Char) : Option (List Char × Char) :=
  match cs.getLast? with
  | none => none
  | some u =>
    let ds := cs.dropLast
    if (u == 's' || u == 'm' || u == 'h' || u == 'd')
        && (!ds.isEmpty) && ds.all Char.isDigit then
      some (ds, u)
    else
      none

/-- Return type of `parseRepeatInterval` (`schedule-parser.service.ts`). -/
structure RepeatParseResult where
  interval : Nat
  isValid : Bool
  errorMessage : Option String
deriving DecidableEq

/-- `ScheduleParserService.parseRepeatInterval`
(`schedule-parser.service.ts` lines 269-332), translated clause by clause:
trim and lowercase, match `^(\d+)(s|m|h|d)$`, reject a zero value, convert
the unit to milliseconds with the 5-second minimum for `s` and the 30-day
maximum for `d`. -/
def parseRepeatInterval (schedule : String) : RepeatParseResult :=
  let trimmed := jsToLower (jsTrim schedule.data)
  match matchRepeatPattern trimmed with
  | none =>
    ⟨0, false, some "Invalid repeat format. Use formats like: 5s, 1m, 1h, 1d"⟩
  | some (valueStr, unit) =>
    let value := natOfDigits valueStr
    if value ≤ 0 then
      ⟨0, false, some "Interval value must be greater than 0"⟩
    else if unit == 's' then
      if value < 5 then ⟨0, false, some "Minimum interval is 5 seconds"⟩
      else ⟨value * 1000, true, none⟩
    else if unit == 'm' then ⟨value * 60 * 1000, true, none⟩
    else if unit == 'h' then ⟨value * 60 * 60 * 1000, true, none⟩
    else if unit == 'd' then
      if value > 30 then ⟨0, false, some "Maximum interval is 30 days"⟩
      else ⟨value * 24 * 60 * 60 * 1000, true, none⟩
    else ⟨0, false, some "Unknown time unit"⟩

/-- The acceptance predicate exactly as the specification words it
(claim-side definition, for comparison with `parseRepeatInterval`):
the trimmed, lowercased text matches `^(\d+)(s|m|h|d)$`, the value is
positive, at least 5 when the unit is `s`, and at most 30 when the unit
is `d`. -/
def repeatAcceptedSpec (schedule : String) : Bool :=
  match matchRepeatPattern (jsToLower (jsTrim schedule.data)) with
  | none => false
  | some (valueStr, unit) =>
    let v := natOfDigits valueStr
    decide (0 < v) && (unit != 's' || decide (5 ≤ v))
      && (unit != 'd' || decide (v ≤ 30))

/-- Unit-to-milliseconds table as the specification words it. -/
def unitToMs (u : Char) : Nat :=
  if u == 's' then 1000
  else if u == 'm' then 60000
  else if u == 'h' then 3600000
  else if u == 'd' then 86400000
  else 0

/-! ## HTTP invoker (`http-client.service.ts`)

The outgoing-request construction in `performRequest` (header JSON parse,
POST body parse, per-job timeout, lines 71-107 of the source) only shapes
the request handed to axios; its effect is absorbed into the abstract
network environment below.  What the embedding keeps is the part that
determines the claims' observables: `validateStatus: () => true`
(line 104) makes axios resolve every *completed* HTTP response, whatever
its status code, so the `catch` path of `executeRequest` is taken only
when the underlying client rejects (transport-level failures — or, in the
unit tests, mocks that throw). -/

/-- Process-wide response-size cap (`MAX_RESPONSE_SIZE = 10 * 1024`). -/
def MAX_RESPONSE_SIZE : Nat := 10 * 1024

/-- Maximum number of attempts (`MAX_RETRIES = 3`). -/
def MAX_RETRIES : Nat := 3

/-- Base backoff delay in ms (`RETRY_DELAY_BASE = 1000`). -/
def RETRY_DELAY_BASE : Nat := 1000

/-- The `data` field of an axios response: either a parsed JSON value
(JS `typeof data === 'object'`), carried together with the text
`JSON.stringify` produces for it, or a plain string payload. -/
inductive RespData where
  | json (stringified : List Char)
  | text (s : List Char)
deriving DecidableEq

/-- `JSON.stringify` on a response payload: a parsed JSON value carries its
serialization; a JS string is serialized with surrounding quotes (escape
sequences inside the string are not modelled). -/
def jsonStringify : RespData → List Char
  | .json s => s
  | .text s => '"' :: (s ++ ['"'])

/-- JS `String(data)` coercion. -/
def jsStringCoerce : RespData → List Char
  | .json s => s
  | .text s => s

/-- A completed axios response, as consumed by `processResponseBody`:
HTTP status, whether the `content-type` header contains
`application/json`, and the payload. -/
structure AxiosResp where
  status : Nat
  contentTypeJson : Bool
  data : RespData
deriving DecidableEq

/-- The fields of a thrown error object that `isRetryableError` and
`createErrorResult` read: `error.code`, `error.message` and
`error.response` (`status`, `statusText`, serialized `data`).  Fields
model JS truthiness: `none` covers both absent and falsy-empty values
where the source tests truthiness of a string. -/
structure ErrResponse where
  status : Nat
  statusText : Option String
  data : Option String
deriving DecidableEq

/-- A JS error object as handled by the invoker's catch path. -/
structure ErrObj where
  code : Option String
  message : Option String
  response : Option ErrResponse
deriving DecidableEq

/-- What the network does with one attempt: the server completes an HTTP
response (any status — axios resolves it because `validateStatus` is
constantly true), or the request fails at transport level and the client
rejects with an error object. -/
inductive NetOutcome where
  | completed (resp : AxiosResp)
  | failed (err : ErrObj)
deriving DecidableEq

/-- One attempt as the environment sees it: how long the request took
(ms of wall time) and its outcome. -/
structure Attempt where
  dur : Nat
  outcome : NetOutcome
deriving DecidableEq

/-- Result status literal `'success' | 'failure'`. -/
inductive ResStatus where
  | success
  | failure
deriving DecidableEq

/-- `ExecutionResult` (`interfaces/execution-result.interface.ts`). -/
structure ExecutionResult where
  status : ResStatus
  responseCode : Option Nat
  responseTime : Nat
  responseBody : Option (List Char)
  errorMessage : Option String
  retryCount : Option Nat
deriving DecidableEq

/-- Persisted log status (`entities/execution-log.entity.ts`). -/
inductive LogStatus where
  | SUCCESS
  | FAILED
deriving DecidableEq

/-- The fields of an `ExecutionLog` row written by `saveExecutionLog`
(`http-client.service.ts` lines 224-233). -/
structure ExecutionLog where
  executedAt : Nat
  status : LogStatus
  responseCode : Option Nat
  responseBody : Option (List Char)
  errorMessage : Option String
  executionTime : Nat
  triggeredManually : Bool
deriving DecidableEq

/-- The serialization step of `HttpClientService.processResponseBody`
(lines 134-143): stringify when the content type contains
`application/json` or the value is an object, otherwise `String(data)`.
The `try/catch` around serialization cannot fire in the model because
serialization is total here. -/
def serializeResponseData (resp : AxiosResp) : List Char :=
  if resp.contentTypeJson then jsonStringify resp.data
  else
    match resp.data with
    | .json s => jsonStringify (.json s)
    | .text s => jsStringCoerce (.text s)

/-- The size cap of `processResponseBody` (lines 145-148). -/
def processResponseBody (resp : AxiosResp) : List Char :=
  let body := serializeResponseData resp
  if body.length > MAX_RESPONSE_SIZE then
    body.take MAX_RESPONSE_SIZE ++ "... [truncated]".data
  else
    body

/-- `HttpClientService.performRequest` from the axios call on (lines
110-128): with `validateStatus: () => true` every completed response
resolves and is turned into a success result; a transport-level rejection
propagates as the thrown error.  `startTime` is the start of the attempt
sequence and `now` the clock when the response settles, so
`responseTime = Date.now() - startTime`. -/
def performRequest (outcome : NetOutcome) (startTime now : Nat) :
    Except ErrObj ExecutionResult :=
  match outcome with
  | .failed e => .error e
  | .completed resp =>
    .ok
      { status := .success
        responseCode := some resp.status
        responseTime := now - startTime
        responseBody := some (processResponseBody resp)
        errorMessage := none
        retryCount := none }

/-- `HttpClientService.isRetryableError` (lines 157-172). -/
def isRetryableError (e : ErrObj) : Bool :=
  if e.code == some "ECONNREFUSED" || e.code == some "ETIMEDOUT"
      || e.code == some "ENOTFOUND" || e.code == some "ECONNRESET" then
    true
  else
    match e.response with
    | some r => decide (500 ≤ r.status) || decide (r.status == 429)
    | none => false

/-- `HttpClientService.createErrorResult` (lines 174-215).  JS truthiness
of `statusText`, `data`, `code` and `message` is modelled by `none`
covering absent or empty values. -/
def createErrorResult (e : ErrObj) (startTime now retryCount : Nat) :
    ExecutionResult :=
  let responseTime := now - startTime
  let (errorMessage, responseCode) :=
    match e.response with
    | some r =>
      let base := "HTTP " ++ toString r.status ++ ": "
        ++ (r.statusText.getD "Unknown error")
      let msg :=
        match r.data with
        | some d => base ++ " - " ++ d
        | none => base
      (msg, some r.status)
    | none =>
      match e.code with
      | some c =>
        let msg :=
          match e.message with
          | some m => "Network error: " ++ c ++ " - " ++ m
          | none => "Network error: " ++ c
        (msg, none)
      | none =>
        match e.message with
        | some m => (m, none)
        | none => ("Unknown error", none)
  { status := .failure
    responseCode := responseCode
    responseTime := responseTime
    responseBody := none
    errorMessage := some errorMessage
    retryCount := if retryCount > 0 then some retryCount else none }

/-- `HttpClientService.saveExecutionLog` (lines 217-240): build the row
from the result and the sequence start time, and insert it.  The insert
is wrapped in `try/catch`, so an insert failure (modelled by
`insertOk = false`) persists nothing and throws nothing. -/
def saveExecutionLog (insertOk : Bool) (result : ExecutionResult)
    (startTime : Nat) (triggeredManually : Bool) : List ExecutionLog :=
  if insertOk then
    [{ executedAt := startTime
       status := if result.status == .success then .SUCCESS else .FAILED
       responseCode := result.responseCode
       responseBody := result.responseBody
       errorMessage := result.errorMessage
       executionTime := result.responseTime
       triggeredManually := triggeredManually }]
  else
    []

/-- The `new Error('Unknown error')` fallback of line 62. -/
def unknownError : ErrObj :=
  { code := none, message := some "Unknown error", response := none }

/-- Outcome of one call to `executeRequest`: the returned result, the
logs persisted during the call, and the clock when the call returned. -/
structure ExecOutcome where
  result : ExecutionResult
  logs : List ExecutionLog
  endTime : Nat
deriving DecidableEq

/-- The `while (retryCount < MAX_RETRIES)` loop of
`HttpClientService.executeRequest` (lines 30-58) plus the exhaustion tail
(lines 61-67).  `env k` is the attempt performed in the iteration that
starts with `retryCount = k`; `now` is the current clock; backoff sleeps
advance the clock by exactly the computed delay.  `fuel` counts the
remaining loop iterations: every call site keeps
`fuel = MAX_RETRIES - retryCount`, so the `0` case is exactly the failed
`while (retryCount < MAX_RETRIES)` guard (lines 60-67). -/
def executeRequestLoop (env : Nat → Attempt) (insertOk : Bool)
    (triggeredManually : Bool) (startTime : Nat) :
    Nat → Nat → Nat → Option ErrObj → ExecOutcome
  | 0, now, retryCount, lastError =>
    let r := createErrorResult (lastError.getD unknownError) startTime now
      retryCount
    ⟨r, saveExecutionLog insertOk r startTime triggeredManually, now⟩
  | fuel + 1, now, retryCount, _lastError =>
    let att := env retryCount
    let now1 := now + att.dur
    match performRequest att.outcome startTime now1 with
    | .ok result =>
      ⟨result, saveExecutionLog insertOk result startTime triggeredManually,
        now1⟩
    | .error e =>
      if isRetryableError e then
        let rc := retryCount + 1
        if rc < MAX_RETRIES then
          executeRequestLoop env insertOk triggeredManually startTime
            fuel (now1 + RETRY_DELAY_BASE * 2 ^ (rc - 1)) rc (some e)
        else
          executeRequestLoop env insertOk triggeredManually startTime
            fuel now1 rc (some e)
      else
        let r := createErrorResult e startTime now1 retryCount
        ⟨r, saveExecutionLog insertOk r startTime triggeredManually, now1⟩

/-- `HttpClientService.executeRequest` (lines 25-68): start the clock,
run the attempt loop from `retryCount = 0` with no last error and
`MAX_RETRIES` iterations of budget. -/
def executeRequest (env : Nat → Attempt) (insertOk : Bool)
    (triggeredManually : Bool) (startTime : Nat) : ExecOutcome :=
  executeRequestLoop env insertOk triggeredManually startTime MAX_RETRIES
    startTime 0 none

/-! ## Scheduler core (`scheduler.service.ts`)

The registry is the `Map<string, JobRegistry>` of the service, modelled
as an association list with unique keys; `runningJobs` is the
`Set<string>` declared on line 29.  Timers only decide *when*
`executeJob` fires, so they stay outside the model: a trace is a sequence
of fire and finish events.  The `await` of the `currentRunning` persist
sits after the gate check and the increment, which are synchronous
(no suspension point between them), so a dispatch step is atomic here
exactly as in the Node event loop. -/

/-- `HttpMethod` (`entities/cronjob.entity.ts`). -/
inductive HttpMethod where
  | GET
  | POST
deriving DecidableEq

/-- `ScheduleType` (`entities/cronjob.entity.ts`). -/
inductive ScheduleType where
  | CRON
  | REPEAT
deriving DecidableEq

/-- `ExecutionMode` (`entities/cronjob.entity.ts`). -/
inductive ExecutionMode where
  | SEQUENTIAL
  | PARALLEL
deriving DecidableEq

/-- The fields of a `CronJob` row that the dispatch path reads.  The
request-shaping fields (`headers`, `body`, `requestTimeout`) are absorbed
by the network environment of the invoker model. -/
structure CronJob where
  id : String
  name : String
  url : String
  method : HttpMethod
  schedule : String
  scheduleType : ScheduleType
  isActive : Bool
  executionMode : ExecutionMode
  maxConcurrent : Int
  executionCount : Int
deriving DecidableEq

/-- `JobStatus` (`scheduler.service.ts` lines 10-14). -/
inductive JobStatus where
  | idle
  | running
  | error
deriving DecidableEq

/-- The per-job `JobRegistry` record (`scheduler.service.ts` lines
16-23). -/
structure JobRegEntry where
  job : CronJob
  status : JobStatus
  lastRun : Option Nat
  isExecuting : Bool
  runningCount : Int
deriving DecidableEq

/-- The scheduler's mutable state: the `jobRegistry` map and the
`runningJobs` set (lines 28-29). -/
structure SchedulerState where
  jobRegistry : List (String × JobRegEntry)
  runningJobs : List String
deriving DecidableEq

/-- `jobRegistry.get(id)` on the association-list model. -/
def lookupEntry (reg : List (String × JobRegEntry)) (id : String) :
    Option JobRegEntry :=
  (reg.find? (fun kv => kv.1 == id)).map Prod.snd

/-- `jobRegistry.set(id, e)` for a key already present: replace the
binding in place. -/
def setEntry (reg : List (String × JobRegEntry)) (id : String)
    (e : JobRegEntry) : List (String × JobRegEntry) :=
  reg.map (fun kv => if kv.1 == id then (id, e) else kv)

/-- `SchedulerService.removeJob` (lines 139-165) restricted to state:
stopping and deleting the timer has no effect on the modelled state; the
registry entry and the `runningJobs` membership are deleted. -/
def removeJob (st : SchedulerState) (jobId : String) : SchedulerState :=
  { jobRegistry := st.jobRegistry.filter (fun kv => !(kv.1 == jobId))
    runningJobs := st.runningJobs.filter (fun k => !(k == jobId)) }

/-- `SchedulerService.isJobRunning` (lines 322-324):
`this.runningJobs.has(jobId)`. -/
def isJobRunning (st : SchedulerState) (jobId : String) : Bool :=
  st.runningJobs.contains jobId

/-- `SchedulerService.registerJob` (lines 71-97): remove any existing
entry, install the timer (which validates the schedule and may throw —
`schedOk` is the outcome of that validation for cron schedules; repeat
schedules consult `parseRepeatInterval`), then insert a fresh registry
entry with `runningCount = 0`.  On a validation failure the entry stays
removed and the error is rethrown to the caller; the returned flag
records success, the state component is the state left behind either
way. -/
def registerJob (st : SchedulerState) (job : CronJob) (schedOk : Bool) :
    SchedulerState × Bool :=
  let st1 :=
    if (lookupEntry st.jobRegistry job.id).isSome then removeJob st job.id
    else st
  let valid :=
    match job.scheduleType with
    | .REPEAT => (parseRepeatInterval job.schedule).isValid
    | .CRON => schedOk
  if valid then
    ({ st1 with
      jobRegistry := st1.jobRegistry
        ++ [(job.id,
            { job := job, status := .idle, lastRun := none
              isExecuting := false, runningCount := 0 })] }, true)
  else
    (st1, false)

/-- The closure handed to the detached execution context: which job runs,
with which `triggeredManually` flag. -/
structure PendingExec where
  jobId : String
  job : CronJob
  triggeredManually : Bool
deriving DecidableEq

/-- Result of one synchronous `executeJob` dispatch step: the state when
the returned promise resolves, the execution handed off to
`executeJobAsync` (if the fire was not skipped), and the
`currentRunning` values persisted to the store. -/
structure DispatchResult where
  state : SchedulerState
  pending : Option PendingExec
  storeWrites : List (String × Int)
deriving DecidableEq

/-- `SchedulerService.executeJob` (lines 173-224), the dispatch path of a
fire event: look up the registry entry (absent: log and return); reload
the job from the store (absent: `removeJob` and return; inactive:
return); gate on the execution mode (`sequential`: skip when
`runningCount > 0`; `parallel`: skip when `runningCount >=
maxConcurrent`); then increment `runningCount`, mark the entry running,
persist `currentRunning`, and hand off to `executeJobAsync` without
awaiting it (the `.catch` of line 221 discards any rejection, so the
returned promise carries nothing). -/
def executeJob (store : String → Option CronJob) (st : SchedulerState)
    (jobId : String) (now : Nat) (triggeredManually : Bool) :
    DispatchResult :=
  match lookupEntry st.jobRegistry jobId with
  | none => ⟨st, none, []⟩
  | some registryEntry =>
    match store jobId with
    | none => ⟨removeJob st jobId, none, []⟩
    | some job =>
      if !job.isActive then ⟨st, none, []⟩
      else
        let skipped :=
          match job.executionMode with
          | .SEQUENTIAL => decide (registryEntry.runningCount > 0)
          | .PARALLEL => decide (registryEntry.runningCount ≥ job.maxConcurrent)
        if skipped then ⟨st, none, []⟩
        else
          let rc := registryEntry.runningCount + 1
          let entry' := { registryEntry with
            runningCount := rc, status := .running, lastRun := some now }
          ⟨{ st with jobRegistry := setEntry st.jobRegistry jobId entry' },
            some ⟨jobId, job, triggeredManually⟩, [(jobId, rc)]⟩

/-- The `finally` block of `SchedulerService.executeJobAsync` (lines
246-262): decrement `runningCount` on the captured registry entry, reset
the status fields when it reaches zero, persist `currentRunning`.  The
source decrements the captured object reference; the model locates it by
id, which coincides as long as the entry has not been replaced (no
re-registration happens inside the traces considered here). -/
def finalizeExecution (st : SchedulerState) (p : PendingExec) :
    SchedulerState × List (String × Int) :=
  match lookupEntry st.jobRegistry p.jobId with
  | none => (st, [])
  | some registryEntry =>
    let rc := registryEntry.runningCount - 1
    let entry' := { registryEntry with
      runningCount := rc
      status := if rc == 0 then .idle else registryEntry.status
      isExecuting := if rc == 0 then false else registryEntry.isExecuting }
    ({ st with jobRegistry := setEntry st.jobRegistry p.jobId entry' },
      [(p.jobId, rc)])

/-- `SchedulerService.executeJobAsync` (lines 226-263): run the HTTP
invoker, then (in the `finally`) decrement the counter.  Returns the
state after the finalizer together with the logs the invoker
persisted. -/
def executeJobAsync (env : Nat → Attempt) (insertOk : Bool)
    (st : SchedulerState) (p : PendingExec) (startTime : Nat) :
    SchedulerState × List ExecutionLog :=
  let o := executeRequest env insertOk p.triggeredManually startTime
  ((finalizeExecution st p).1, o.logs)

/-- `SchedulerService.executeJobManually` (lines 326-328):
`executeJob(jobId, true)`. -/
def executeJobManually (store : String → Option CronJob)
    (st : SchedulerState) (jobId : String) (now : Nat) : DispatchResult :=
  executeJob store st jobId now true

/-! ## Manual trigger and rate limiter (`job-execution.controller.ts`)

Timestamps are milliseconds since the epoch (`Date.now()`), modelled as
`Nat`; the rate-limit map is the controller's `Map<string,
RateLimitEntry>` as an association list in insertion order.  The
remaining wait is a rational (`waitTime = (window - elapsed) / 1000`
seconds); the response message renders it with `toFixed(1)` and the
`retryAfter` field carries the raw value. -/

/-- `RATE_LIMIT_WINDOW = 10000` ms (line 35). -/
def RATE_LIMIT_WINDOW : Nat := 10000

/-- `RateLimitEntry` (lines 25-28). -/
structure RateLimitEntry where
  lastExecutionTime : Nat
  count : Nat
deriving DecidableEq

/-- The 429 payload thrown by `checkRateLimit`: HTTP status and the
`retryAfter` seconds. -/
structure RateLimitReject where
  statusCode : Nat
  retryAfter : ℚ
deriving DecidableEq

/-- `rateLimitMap.set(id, e)` when the key may already be present:
replace in place, else append (JS `Map` insertion order). -/
def setRateLimitEntry (m : List (String × RateLimitEntry)) (id : String)
    (e : RateLimitEntry) : List (String × RateLimitEntry) :=
  if (m.find? (fun kv => kv.1 == id)).isSome then
    m.map (fun kv => if kv.1 == id then (id, e) else kv)
  else
    m ++ [(id, e)]

/-- The cleanup block of `checkRateLimit` (lines 256-263): when the map
holds more than 100 entries, delete every entry whose last trigger is
older than `now - 2 * RATE_LIMIT_WINDOW`. -/
def rateLimitCleanup (m : List (String × RateLimitEntry)) (now : Nat) :
    List (String × RateLimitEntry) :=
  if m.length > 100 then
    m.filter (fun kv =>
      !decide (kv.2.lastExecutionTime < now - 2 * RATE_LIMIT_WINDOW))
  else
    m

/-- `JobExecutionController.checkRateLimit` (lines 224-264): reject with
429 and the remaining wait when the last accepted trigger for this job is
less than `RATE_LIMIT_WINDOW` ms old; otherwise record `now` (count 1)
and run the cleanup. -/
def checkRateLimit (m : List (String × RateLimitEntry)) (jobId : String)
    (now : Nat) : Except RateLimitReject (List (String × RateLimitEntry)) :=
  match (m.find? (fun kv => kv.1 == jobId)).map Prod.snd with
  | some rateLimitEntry =>
    let timeSinceLastExecution := now - rateLimitEntry.lastExecutionTime
    if timeSinceLastExecution < RATE_LIMIT_WINDOW then
      .error
        { statusCode := 429
          retryAfter :=
            ((RATE_LIMIT_WINDOW : ℚ) - (timeSinceLastExecution : ℚ)) / 1000 }
    else
      .ok (rateLimitCleanup
        (setRateLimitEntry m jobId ⟨now, 1⟩) now)
  | none =>
    .ok (rateLimitCleanup
      (setRateLimitEntry m jobId ⟨now, 1⟩) now)

/-- The error responses `triggerJob` can produce. -/
inductive ApiError where
  | tooManyRequests (retryAfter : ℚ)
  | notFound (id : String)
  | badRequest (msg : String)
deriving DecidableEq

/-- The 200 body of `POST /api/jobs/{id}/trigger` (lines 166-175).  The
`executionResult` field is the object literal
`{ status: 'success', responseTime: Date.now() - startTime }` cast to
`ExecutionResult` — it is synthesized by the controller, not taken from
the HTTP execution. -/
structure TriggerResponse where
  jobId : String
  jobName : String
  executionResult : ExecutionResult
  triggeredAt : Nat
  message : String
deriving DecidableEq

/-- `JobExecutionController.triggerJob` (lines 119-189): rate limit,
load the job (404 when absent), reject inactive jobs (400), reject when
`isJobRunning` (400), then `await executeJobManually(id)` and answer 200
with the synthesized success result.  `tStart` is the controller's
`startTime`, `tDispatch` the clock inside the dispatch, `tEnd` the clock
when the response object is built.  The `catch` → 500 branch cannot fire
in the model because the dispatch function is total. -/
def triggerJob (store : String → Option CronJob) (st : SchedulerState)
    (m : List (String × RateLimitEntry)) (id : String)
    (tStart tDispatch tEnd : Nat) :
    Except ApiError
      (TriggerResponse × SchedulerState × List (String × RateLimitEntry)
        × Option PendingExec) :=
  match checkRateLimit m id tStart with
  | .error r => .error (.tooManyRequests r.retryAfter)
  | .ok m' =>
    match store id with
    | none => .error (.notFound id)
    | some job =>
      if !job.isActive then
        .error (.badRequest
          "Job is not active. Please activate the job before triggering manually.")
      else if isJobRunning st id then
        .error (.badRequest
          "Job is already running. Please wait for the current execution to complete.")
      else
        let d := executeJobManually store st id tDispatch
        .ok
          ({ jobId := job.id
             jobName := job.name
             executionResult :=
               { status := .success, responseCode := none
                 responseTime := tEnd - tStart, responseBody := none
                 errorMessage := none, retryCount := none }
             triggeredAt := tEnd
             message := "Job executed successfully" },
            d.state, m', d.pending)

/-! ## Traces

`DispatchTrace` captures steady-state operation of one scheduler
instance over a fixed store: fire events run the dispatch path, finish
events run the finalizer of one in-flight execution.  `SchedulerReach`
additionally allows the lifecycle calls (`registerJob`, `removeJob` —
`updateJob`, `enableJob` and `disableJob` are compositions of these two)
starting from the freshly constructed service, whose maps are empty. -/

/-- Steady-state traces: fires and finishes over a fixed store, starting
from any state whose registered entries are all quiescent
(`runningCount = 0`) with nothing in flight. -/
inductive DispatchTrace (store : String → Option CronJob) :
    SchedulerState → List PendingExec → Prop where
  | init (st : SchedulerState)
      (h : ∀ id e, lookupEntry st.jobRegistry id = some e →
        e.runningCount = 0) :
      DispatchTrace store st []
  | fire (st : SchedulerState) (ps : List PendingExec)
      (id : String) (now : Nat) (manual : Bool)
      (hd : DispatchTrace store st ps) :
      DispatchTrace store (executeJob store st id now manual).state
        (ps ++ (executeJob store st id now manual).pending.toList)
  | finish (st : SchedulerState) (ps₁ ps₂ : List PendingExec)
      (p : PendingExec)
      (hd : DispatchTrace store st (ps₁ ++ p :: ps₂)) :
      DispatchTrace store (finalizeExecution st p).1 (ps₁ ++ ps₂)

/-- Full lifecycle traces from the freshly constructed service. -/
inductive SchedulerReach (store : String → Option CronJob) :
    SchedulerState → List PendingExec → Prop where
  | empty : SchedulerReach store ⟨[], []⟩ []
  | register (st : SchedulerState) (ps : List PendingExec)
      (job : CronJob) (schedOk : Bool)
      (hd : SchedulerReach store st ps) :
      SchedulerReach store (registerJob st job schedOk).1 ps
  | remove (st : SchedulerState) (ps : List PendingExec) (id : String)
      (hd : SchedulerReach store st ps) :
      SchedulerReach store (removeJob st id) ps
  | fire (st : SchedulerState) (ps : List PendingExec)
      (id : String) (now : Nat) (manual : Bool)
      (hd : SchedulerReach store st ps) :
      SchedulerReach store (executeJob store st id now manual).state
        (ps ++ (executeJob store st id now manual).pending.toList)
  | finish (st : SchedulerState) (ps₁ ps₂ : List PendingExec)
      (p : PendingExec)
      (hd : SchedulerReach store st (ps₁ ++ p :: ps₂)) :
      SchedulerReach store (finalizeExecution st p).1 (ps₁ ++ ps₂)

/-! ## Concrete fixtures used by witnesses and counterexamples -/

/-- A sequential repeat job. -/
def sampleSeqJob : CronJob :=
  { id := "job-1", name := "Job One", url := "http://example.com/ping"
    method := .GET, schedule := "5s", scheduleType := .REPEAT
    isActive := true, executionMode := .SEQUENTIAL, maxConcurrent := 1
    executionCount := 0 }

/-- The same job, deactivated. -/
def sampleInactiveJob : CronJob := { sampleSeqJob with isActive := false }

/-- A store holding only `sampleSeqJob`. -/
def sampleStore : String → Option CronJob :=
  fun id => if id == "job-1" then some sampleSeqJob else none

/-- A store holding only the deactivated job. -/
def inactiveStore : String → Option CronJob :=
  fun id => if id == "job-1" then some sampleInactiveJob else none

/-- A store with no jobs. -/
def emptyStore : String → Option CronJob := fun _ => none

/-- A quiescent registry entry for `sampleSeqJob`. -/
def sampleEntry : JobRegEntry :=
  { job := sampleSeqJob, status := .idle, lastRun := none
    isExecuting := false, runningCount := 0 }

/-- The scheduler with `sampleSeqJob` registered and idle. -/
def sampleState : SchedulerState :=
  { jobRegistry := [("job-1", sampleEntry)], runningJobs := [] }

/-- A registry entry for `sampleSeqJob` with one execution in flight. -/
def sampleBusyEntry : JobRegEntry :=
  { job := sampleSeqJob, status := .running, lastRun := some 0
    isExecuting := false, runningCount := 1 }

/-- The scheduler with one execution of `sampleSeqJob` in flight. -/
def sampleBusyState : SchedulerState :=
  { jobRegistry := [("job-1", sampleBusyEntry)], runningJobs := [] }

/-- A network where every attempt completes with HTTP 404 after 50 ms
(the endpoint answers `404 Not Found`, body `Resource not found`). -/
def env404 : Nat → Attempt :=
  fun _ => ⟨50, .completed ⟨404, false, .text "Resource not found".data⟩⟩

/-- A network that completes 500, then 500, then 200, each in 40 ms —
the retry-scenario endpoint of the specification. -/
def env5xx : Nat → Attempt :=
  fun k =>
    if k == 0 then ⟨40, .completed ⟨500, false, .text "error".data⟩⟩
    else if k == 1 then ⟨40, .completed ⟨500, false, .text "error".data⟩⟩
    else ⟨40, .completed ⟨200, true, .json "\x7btrue\x7d".data⟩⟩

/-- A network where every attempt is refused at transport level after
10 ms. -/
def envNetFail : Nat → Attempt :=
  fun _ =>
    ⟨10, .failed
      { code := some "ECONNREFUSED", message := some "Connection refused"
        response := none }⟩

/-- A 200 JSON response, 2-character body. -/
def okResp : AxiosResp := ⟨200, false, .text "ok".data⟩

/-- A 15000-character plain-text payload. -/
def longBody : List Char := List.replicate 15000 'x'

/-- A completed 200 response carrying `longBody` as `text/plain`. -/
def longResp : AxiosResp := ⟨200, false, .text longBody⟩

/-- Number of in-flight executions of one job: the pending executions
whose `jobId` matches. -/
def pendingCountFor (ps : List PendingExec) (id : String) : Nat :=
  ps.countP (fun p => p.jobId == id)

/-! ## Theorems -/

/-- Inversion for the repeat-pattern matcher: a successful match yields a
recognized unit letter and a non-empty digit group. -/
theorem matchRepeatPattern_eq_some {cs ds : List Char} {u : Char}
    (h : matchRepeatPattern cs = some (ds, u)) :
    (u = 's' ∨ u = 'm' ∨ u = 'h' ∨ u = 'd') ∧ ds ≠ [] := by
  unfold matchRepeatPattern at h
  split at h
  · cases h
  · dsimp only at h
    split at h
    case isTrue hc =>
      obtain ⟨h1, h2⟩ := Prod.mk.injEq .. ▸ Option.some.inj h
      subst h1; subst h2
      simp only [Bool.and_eq_true, Bool.or_eq_true, beq_iff_eq,
        Bool.not_eq_true'] at hc
      refine ⟨?_, ?_⟩
      · have := hc.1.1; tauto
      · intro he
        have := hc.1.2
        simp [he] at this
    case isFalse => cases h

/-- C7.  Repeat-schedule validation: `parseRepeatInterval` accepts
exactly the schedules whose trimmed, lowercased text matches
`^(\d+)(s|m|h|d)$` with a positive value, at least 5 for unit `s` and at
most 30 for unit `d` (the claim-side predicate `repeatAcceptedSpec`); on
acceptance the interval is the value times 1000 / 60000 / 3600000 /
86400000 ms for `s`/`m`/`h`/`d`; and `'3s'` is rejected with the message
`'Minimum interval is 5 seconds'`. -/
theorem repeat_schedule_validation (s : String) :
    (parseRepeatInterval s).isValid = repeatAcceptedSpec s
    ∧ (∀ ds u, matchRepeatPattern (jsToLower (jsTrim s.data)) = some (ds, u) →
        (parseRepeatInterval s).isValid = true →
        (parseRepeatInterval s).interval = natOfDigits ds * unitToMs u)
    ∧ (parseRepeatInterval "3s").isValid = false
    ∧ (parseRepeatInterval "3s").errorMessage
        = some "Minimum interval is 5 seconds" := by
  refine ⟨?_, ?_, by decide, by decide⟩
  · unfold parseRepeatInterval repeatAcceptedSpec
    rcases h : matchRepeatPattern (jsToLower (jsTrim s.data)) with _ | ⟨ds, u⟩
    · simp [h]
    · obtain ⟨hu, -⟩ := matchRepeatPattern_eq_some h
      simp only [h]
      set v := natOfDigits ds with hv
      rcases hu with rfl | rfl | rfl | rfl
      · by_cases h1 : v ≤ 0
        · have h2 : ¬ (0 < v) := by omega
          simp [h1, h2]
        · by_cases h2 : v < 5
          · have h3 : ¬ (5 ≤ v) := by omega
            simp [h1, h2, h3]
          · have h3 : 5 ≤ v := by omega
            have h4 : 0 < v := by omega
            simp [h1, h2, h3, h4]
      · by_cases h1 : v ≤ 0
        · have h2 : ¬ (0 < v) := by omega
          simp [h1, h2]
        · have h2 : 0 < v := by omega
          simp [h1, h2]
      · by_cases h1 : v ≤ 0
        · have h2 : ¬ (0 < v) := by omega
          simp [h1, h2]
        · have h2 : 0 < v := by omega
          simp [h1, h2]
      · by_cases h1 : v ≤ 0
        · have h2 : ¬ (0 < v) := by omega
          simp [h1, h2]
        · by_cases h2 : v > 30
          · have h3 : ¬ (v ≤ 30) := by omega
            simp [h1, h2, h3]
          · have h3 : v ≤ 30 := by omega
            have h4 : 0 < v := by omega
            simp [h1, h2, h3, h4]
  · intro ds u hm hval
    unfold parseRepeatInterval at hval ⊢
    dsimp only at hval ⊢
    rw [hm] at hval ⊢
    obtain ⟨hu, -⟩ := matchRepeatPattern_eq_some hm
    set v := natOfDigits ds with hv
    rcases hu with rfl | rfl | rfl | rfl
    · by_cases h1 : v ≤ 0
      · simp [h1] at hval
      · by_cases h2 : v < 5
        · simp [h1, h2] at hval
        · simp [h1, h2, unitToMs]
    · by_cases h1 : v ≤ 0
      · simp [h1] at hval
      · simp [h1, unitToMs]; omega
    · by_cases h1 : v ≤ 0
      · simp [h1] at hval
      · simp [h1, unitToMs]; omega
    · by_cases h1 : v ≤ 0
      · simp [h1] at hval
      · by_cases h2 : v > 30
        · simp [h1, h2] at hval
        · simp [h1, h2, unitToMs]; omega

/-- C7 witness: the theorem applied to the concrete schedule `'10m'`. -/
theorem repeat_schedule_validation_witness :
    (parseRepeatInterval "10m").isValid = repeatAcceptedSpec "10m"
    ∧ (parseRepeatInterval "10m").interval
        = natOfDigits ['1', '0'] * unitToMs 'm' :=
  ⟨(repeat_schedule_validation "10m").1,
   (repeat_schedule_validation "10m").2.1 ['1', '0'] 'm' (by decide) (by decide)⟩

/-- C8 counterexample: on the 15000-character `text/plain` payload of the
service's own unit test, the recorded body is not the first 10240
characters followed by the claimed suffix `'… [truncated]'` (the code
appends the 15-character ASCII `'... [truncated]'` instead), and its
length exceeds `10 * 1024` plus the length of the claimed suffix. -/
theorem truncation_suffix_counterexample :
    processResponseBody longResp
        ≠ longBody.take MAX_RESPONSE_SIZE ++ "… [truncated]".data
    ∧ MAX_RESPONSE_SIZE + "… [truncated]".data.length
        < (processResponseBody longResp).length := by
  have hser : serializeResponseData longResp = longBody := rfl
  have hlen : longBody.length = 15000 := by
    rw [show longBody = List.replicate 15000 'x' from rfl,
      List.length_replicate]
  have h15 : "... [truncated]".data.length = 15 := by decide
  have h13 : "… [truncated]".data.length = 13 := by decide
  have hpb : processResponseBody longResp
      = longBody.take MAX_RESPONSE_SIZE ++ "... [truncated]".data := by
    unfold processResponseBody
    rw [hser]
    rw [if_pos (by rw [hlen]; norm_num [MAX_RESPONSE_SIZE])]
  have hlen2 : (processResponseBody longResp).length = 10255 := by
    rw [hpb, List.length_append, List.length_take, hlen, h15]
    norm_num [MAX_RESPONSE_SIZE]
  constructor
  · intro hEq
    have hL := congrArg List.length hEq
    rw [hlen2, List.length_append, List.length_take, hlen, h13] at hL
    norm_num [MAX_RESPONSE_SIZE] at hL
  · rw [hlen2, h13]
    norm_num [MAX_RESPONSE_SIZE]

/-- C8 as amended: the recorded body is the serialized payload, left
unchanged when it has at most `10 * 1024` characters and otherwise
truncated to its first `10 * 1024` characters followed by the ASCII
suffix `'... [truncated]'`; hence its length is bounded by `10 * 1024`
plus the length of that suffix. -/
theorem response_body_truncation (resp : AxiosResp) :
    (processResponseBody resp).length
        ≤ MAX_RESPONSE_SIZE + "... [truncated]".data.length
    ∧ ((serializeResponseData resp).length ≤ MAX_RESPONSE_SIZE →
        processResponseBody resp = serializeResponseData resp)
    ∧ (MAX_RESPONSE_SIZE < (serializeResponseData resp).length →
        processResponseBody resp
          = (serializeResponseData resp).take MAX_RESPONSE_SIZE
            ++ "... [truncated]".data) := by
  unfold processResponseBody
  dsimp only
  split
  case isTrue h =>
    refine ⟨?_, fun hle => absurd hle (by omega), fun _ => rfl⟩
    rw [List.length_append, List.length_take]
    omega
  case isFalse h =>
    exact ⟨by omega, fun _ => rfl, fun hlt => absurd hlt (by omega)⟩

/-- C8 witness: the amended theorem applied to the small 200 response
`okResp`, whose 2-character body is kept unchanged. -/
theorem response_body_truncation_witness :
    (processResponseBody okResp).length
        ≤ MAX_RESPONSE_SIZE + "... [truncated]".data.length
    ∧ processResponseBody okResp = serializeResponseData okResp :=
  ⟨(response_body_truncation okResp).1,
   (response_body_truncation okResp).2.1 (by decide)⟩

/-- C1: the failing input.  When the endpoint completes its response with
status 404 (`env404`), `validateStatus: () => true` makes the attempt
resolve, so the invoker performs exactly one attempt and records one
ExecutionLog — but with `status = success`, `responseCode = 404`, the
response body as payload and no error message, not the claimed
`status = failure` with an `'HTTP 404: '` message.  No retry happens
(the call returns at `startTime + 50`, the duration of the single
attempt). -/
theorem http404_completes_as_success :
    (executeRequest env404 true false 1000).result.status = .success
    ∧ (executeRequest env404 true false 1000).result.responseCode = some 404
    ∧ (executeRequest env404 true false 1000).result.errorMessage = none
    ∧ (executeRequest env404 true false 1000).logs
        = [{ executedAt := 1000, status := .SUCCESS, responseCode := some 404
             responseBody := some "Resource not found".data
             errorMessage := none, executionTime := 50
             triggeredManually := false }]
    ∧ (executeRequest env404 true false 1000).endTime = 1050 := by
  decide

/-- C2: the failing input.  Against the endpoint that would answer 500,
500, 200 (`env5xx`), the first completed 500 response already resolves
(`validateStatus: () => true`), so the invoker performs exactly one
attempt, never consults `isRetryableError`, sleeps no backoff, and
records one ExecutionLog with `status = success`, `responseCode = 500`
and `executionTime = 40 ms` — not the claimed retried success with
`responseCode = 200` and `executionTime ≥ 3000 ms`. -/
theorem http500_not_retried :
    (executeRequest env5xx true false 0).result.status = .success
    ∧ (executeRequest env5xx true false 0).result.responseCode = some 500
    ∧ (executeRequest env5xx true false 0).result.retryCount = none
    ∧ (executeRequest env5xx true false 0).logs.length = 1
    ∧ (executeRequest env5xx true false 0).result.responseTime = 40
    ∧ (executeRequest env5xx true false 0).endTime = 40 := by
  decide

/-- The error result always reports the elapsed time from the sequence
start. -/
theorem createErrorResult_responseTime (e : ErrObj) (s n rc : Nat) :
    (createErrorResult e s n rc).responseTime = n - s := by
  obtain ⟨c, m, resp⟩ := e
  unfold createErrorResult
  rcases resp with _ | r
  · rcases c with _ | c' <;> rcases m with _ | m' <;> rfl
  · rcases r.data with _ | d <;> rfl

/-- Loop invariant behind C6: for any remaining budget, the loop's
result and end time do not depend on whether log insertion succeeds, the
result's `responseTime` is the elapsed time from the sequence start
(backoffs included, since the clock advances by each backoff), and the
persisted logs are exactly one `saveExecutionLog` of the returned
result. -/
theorem executeRequestLoop_spec (env : Nat → Attempt)
    (insertOk manual : Bool) (startTime : Nat) :
    ∀ fuel now retryCount lastError,
      (executeRequestLoop env insertOk manual startTime fuel now retryCount
          lastError).result
        = (executeRequestLoop env true manual startTime fuel now retryCount
            lastError).result
      ∧ (executeRequestLoop env insertOk manual startTime fuel now retryCount
          lastError).endTime
        = (executeRequestLoop env true manual startTime fuel now retryCount
            lastError).endTime
      ∧ (executeRequestLoop env insertOk manual startTime fuel now retryCount
          lastError).result.responseTime
        = (executeRequestLoop env insertOk manual startTime fuel now retryCount
            lastError).endTime - startTime
      ∧ (executeRequestLoop env insertOk manual startTime fuel now retryCount
          lastError).logs
        = saveExecutionLog insertOk
            (executeRequestLoop env insertOk manual startTime fuel now
              retryCount lastError).result startTime manual := by
  intro fuel
  induction fuel with
  | zero =>
    intro now retryCount lastError
    refine ⟨rfl, rfl, ?_, rfl⟩
    exact createErrorResult_responseTime _ _ _ _
  | succ fuel ih =>
    intro now retryCount lastError
    simp only [executeRequestLoop]
    cases ho : (env retryCount).outcome with
    | completed resp =>
      simp [performRequest]
    | failed e =>
      simp only [performRequest]
      by_cases hr : isRetryableError e
      · simp only [hr, if_true]
        by_cases h2 : retryCount + 1 < MAX_RETRIES
        · simp only [h2, if_true]
          exact ih _ _ _
        · simp only [h2, if_false]
          exact ih _ _ _
      · simp only [hr, if_false]
        exact ⟨rfl, rfl, createErrorResult_responseTime _ _ _ _, rfl⟩

/-- C6.  Every call to `executeRequest` persists exactly one
ExecutionLog (none when the insert itself fails, which is caught); the
log's `executedAt` is the start of the attempt sequence and its
`executionTime` spans from that start to the terminal outcome, backoff
sleeps included; and the returned result is the same whether or not the
log insert succeeds — an insert failure never propagates. -/
theorem one_log_per_invocation (env : Nat → Attempt)
    (insertOk manual : Bool) (startTime : Nat) :
    (insertOk = true →
      (executeRequest env insertOk manual startTime).logs.length = 1)
    ∧ (insertOk = false →
      (executeRequest env insertOk manual startTime).logs = [])
    ∧ (∀ l ∈ (executeRequest env insertOk manual startTime).logs,
        l.executedAt = startTime
        ∧ l.executionTime
            = (executeRequest env insertOk manual startTime).endTime
              - startTime
        ∧ l.triggeredManually = manual)
    ∧ (executeRequest env insertOk manual startTime).result
        = (executeRequest env true manual startTime).result := by
  obtain ⟨hres, hend, hrt, hlogs⟩ :=
    executeRequestLoop_spec env insertOk manual startTime MAX_RETRIES
      startTime 0 none
  refine ⟨?_, ?_, ?_, hres⟩
  · intro h
    rw [show executeRequest env insertOk manual startTime
      = executeRequestLoop env insertOk manual startTime MAX_RETRIES
          startTime 0 none from rfl, hlogs, h]
    rfl
  · intro h
    rw [show executeRequest env insertOk manual startTime
      = executeRequestLoop env insertOk manual startTime MAX_RETRIES
          startTime 0 none from rfl, hlogs, h]
    rfl
  · intro l hl
    rw [show executeRequest env insertOk manual startTime
      = executeRequestLoop env insertOk manual startTime MAX_RETRIES
          startTime 0 none from rfl, hlogs] at hl
    unfold saveExecutionLog at hl
    rcases insertOk with _ | _
    · simp at hl
    · simp only [if_true] at hl
      rcases List.mem_singleton.mp hl with rfl
      exact ⟨rfl, hrt, rfl⟩

/-- C6 witness: the theorem applied to the all-404 network with a
succeeding insert. -/
theorem one_log_per_invocation_witness :
    (executeRequest env404 true false 1000).logs.length = 1
    ∧ (executeRequest env404 true false 1000).result
        = (executeRequest env404 true false 1000).result :=
  ⟨(one_log_per_invocation env404 true false 1000).1 rfl,
   (one_log_per_invocation env404 true false 1000).2.2.2⟩

/-- Replacing the binding of `id` and reading `id` back yields the new
entry (provided a binding exists). -/
theorem lookupEntry_setEntry_self (reg : List (String × JobRegEntry))
    (id : String) (e : JobRegEntry)
    (h : (lookupEntry reg id).isSome) :
    lookupEntry (setEntry reg id e) id = some e := by
  induction reg with
  | nil => simp [lookupEntry] at h
  | cons kv tl ih =>
    simp only [lookupEntry, setEntry, List.map_cons] at h ih ⊢
    by_cases hk : (kv.1 == id) = true
    · rw [if_pos hk, List.find?_cons_of_pos (p := fun (x : String × JobRegEntry) => x.1 == id) _
        (by simp)]
      rfl
    · rw [if_neg hk, List.find?_cons_of_neg (p := fun (x : String × JobRegEntry) => x.1 == id) _ hk]
      rw [List.find?_cons_of_neg (p := fun (x : String × JobRegEntry) => x.1 == id) _ hk] at h
      exact ih h

/-- Reading a different key is unaffected by `setEntry`. -/
theorem lookupEntry_setEntry_ne (reg : List (String × JobRegEntry))
    (id id' : String) (e : JobRegEntry) (h : id' ≠ id) :
    lookupEntry (setEntry reg id e) id' = lookupEntry reg id' := by
  induction reg with
  | nil => rfl
  | cons kv tl ih =>
    simp only [lookupEntry, setEntry, List.map_cons] at ih ⊢
    by_cases hk : (kv.1 == id) = true
    · have h1 : ¬ ((id, e).1 == id') = true := by
        simp only [beq_iff_eq]
        exact fun hc => h hc.symm
      have h2 : ¬ (kv.1 == id') = true := by
        simp only [beq_iff_eq] at hk ⊢
        rw [hk]
        exact fun hc => h hc.symm
      rw [if_pos hk,
        List.find?_cons_of_neg (p := fun (x : String × JobRegEntry) => x.1 == id') _ h1,
        List.find?_cons_of_neg (p := fun (x : String × JobRegEntry) => x.1 == id') _ h2]
      exact ih
    · rw [if_neg hk]
      by_cases hkv : (kv.1 == id') = true
      · rw [List.find?_cons_of_pos (p := fun (x : String × JobRegEntry) => x.1 == id') _ hkv,
          List.find?_cons_of_pos (p := fun (x : String × JobRegEntry) => x.1 == id') _ hkv]
      · rw [List.find?_cons_of_neg (p := fun (x : String × JobRegEntry) => x.1 == id') _ hkv,
          List.find?_cons_of_neg (p := fun (x : String × JobRegEntry) => x.1 == id') _ hkv]
        exact ih

/-- After `removeJob`, the removed id has no registry entry. -/
theorem lookupEntry_removeJob_self (st : SchedulerState) (id : String) :
    lookupEntry (removeJob st id).jobRegistry id = none := by
  simp only [removeJob, lookupEntry]
  have : List.find? (fun kv => kv.1 == id)
      (st.jobRegistry.filter (fun kv => !(kv.1 == id))) = none := by
    rw [List.find?_eq_none]
    intro kv hkv
    have h2 := (List.mem_filter.mp hkv).2
    simp only [Bool.not_eq_true'] at h2
    simp [h2]
  rw [this]
  rfl

/-- `removeJob` leaves other ids' registry entries unchanged. -/
theorem lookupEntry_removeJob_ne (st : SchedulerState) (id id' : String)
    (h : id' ≠ id) :
    lookupEntry (removeJob st id).jobRegistry id'
      = lookupEntry st.jobRegistry id' := by
  simp only [removeJob, lookupEntry]
  congr 1
  generalize st.jobRegistry = l
  induction l with
  | nil => rfl
  | cons kv tl ih =>
    by_cases hk : (kv.1 == id) = true
    · have hkv : ¬ (kv.1 == id') = true := by
        simp only [beq_iff_eq] at hk ⊢
        rw [hk]
        exact fun hc => h hc.symm
      rw [List.filter_cons_of_neg (by simp [hk]),
        List.find?_cons_of_neg (p := fun (x : String × JobRegEntry) => x.1 == id') _ hkv]
      exact ih
    · have hf : (kv.1 == id) = false := by
        revert hk
        cases kv.1 == id <;> simp
      rw [List.filter_cons_of_pos (by simp [hf])]
      by_cases hkv : (kv.1 == id') = true
      · rw [List.find?_cons_of_pos (p := fun (x : String × JobRegEntry) => x.1 == id') _ hkv,
          List.find?_cons_of_pos (p := fun (x : String × JobRegEntry) => x.1 == id') _ hkv]
      · rw [List.find?_cons_of_neg (p := fun (x : String × JobRegEntry) => x.1 == id') _ hkv,
          List.find?_cons_of_neg (p := fun (x : String × JobRegEntry) => x.1 == id') _ hkv]
        exact ih

/-- C4 counterexample: with `sampleSeqJob` registered but stored as
inactive, a fire returns without executing and without a log, but the
registry entry is *not* removed (the dispatcher removes it only when the
job is missing from the store). -/
theorem inactive_fire_keeps_registry_entry :
    executeJob inactiveStore sampleState "job-1" 0 false
      = ⟨sampleState, none, []⟩
    ∧ (lookupEntry (executeJob inactiveStore sampleState "job-1" 0
          false).state.jobRegistry "job-1").isSome = true := by
  decide

/-- C4 as amended: on a fire whose registry entry exists, if the job is
missing from the store the dispatcher removes the registry entry (and
timer) and returns with no execution handed off and no store write; if
the job is present but inactive it returns with no execution, no store
write and no log, leaving the registry entry in place. -/
theorem fire_reload_missing_or_inactive
    (store : String → Option CronJob) (st : SchedulerState) (id : String)
    (now : Nat) (manual : Bool) (e : JobRegEntry)
    (he : lookupEntry st.jobRegistry id = some e) :
    (store id = none →
      executeJob store st id now manual = ⟨removeJob st id, none, []⟩
      ∧ lookupEntry (removeJob st id).jobRegistry id = none)
    ∧ (∀ job, store id = some job → job.isActive = false →
        executeJob store st id now manual = ⟨st, none, []⟩
        ∧ lookupEntry
            (executeJob store st id now manual).state.jobRegistry id
          = some e) := by
  constructor
  · intro hs
    refine ⟨?_, lookupEntry_removeJob_self st id⟩
    unfold executeJob
    rw [he, hs]
  · intro job hs hact
    have hx : executeJob store st id now manual = ⟨st, none, []⟩ := by
      simp [executeJob, he, hs, hact]
    exact ⟨hx, by rw [hx]; exact he⟩

/-- C4 witness: the amended theorem applied to the empty store and the
one-job registry. -/
theorem fire_reload_missing_or_inactive_witness :
    executeJob emptyStore sampleState "job-1" 0 false
      = ⟨removeJob sampleState "job-1", none, []⟩
    ∧ lookupEntry (removeJob sampleState "job-1").jobRegistry "job-1"
      = none :=
  (fire_reload_missing_or_inactive emptyStore sampleState "job-1" 0 false
    sampleEntry (by decide)).1 rfl

/-- `registerJob` never touches the `runningJobs` set (at most the
embedded `removeJob` filters it). -/
theorem registerJob_runningJobs (st : SchedulerState) (job : CronJob)
    (schedOk : Bool) :
    (registerJob st job schedOk).1.runningJobs = st.runningJobs
    ∨ (registerJob st job schedOk).1.runningJobs
        = st.runningJobs.filter (fun k => !(k == job.id)) := by
  unfold registerJob removeJob
  dsimp only
  split <;> split <;> simp

/-- `executeJob` never touches the `runningJobs` set (at most the
embedded `removeJob` filters it). -/
theorem executeJob_runningJobs (store : String → Option CronJob)
    (st : SchedulerState) (id : String) (now : Nat) (manual : Bool) :
    (executeJob store st id now manual).state.runningJobs = st.runningJobs
    ∨ (executeJob store st id now manual).state.runningJobs
        = st.runningJobs.filter (fun k => !(k == id)) := by
  unfold executeJob removeJob
  rcases lookupEntry st.jobRegistry id with _ | e
  · left; rfl
  · rcases store id with _ | job
    · right; rfl
    · dsimp only
      split
      · left; rfl
      · split
        · left; rfl
        · left; rfl

/-- The finalizer never touches the `runningJobs` set. -/
theorem finalizeExecution_runningJobs (st : SchedulerState)
    (p : PendingExec) :
    (finalizeExecution st p).1.runningJobs = st.runningJobs := by
  unfold finalizeExecution
  rcases lookupEntry st.jobRegistry p.jobId with _ | e <;> rfl

/-- In every reachable scheduler state the `runningJobs` set is empty:
no code path ever adds to it (`scheduler.service.ts` only declares it,
deletes from it in `removeJob`, and reads it in `isJobRunning`). -/
theorem schedulerReach_runningJobs_empty {store : String → Option CronJob}
    {st : SchedulerState} {ps : List PendingExec}
    (h : SchedulerReach store st ps) : st.runningJobs = [] := by
  induction h with
  | empty => rfl
  | register st ps job schedOk hd ih =>
    rcases registerJob_runningJobs st job schedOk with he | he <;>
      (rw [he, ih]; try rfl)
  | remove st ps id hd ih =>
    show (st.runningJobs.filter _) = []
    rw [ih]
    rfl
  | fire st ps id now manual hd ih =>
    rcases executeJob_runningJobs store st id now manual with he | he <;>
      (rw [he, ih]; try rfl)
  | finish st ps₁ ps₂ p hd ih =>
    rw [finalizeExecution_runningJobs, ih]

/-- C5.  `isJobRunning` is constantly false: in every reachable state of
the scheduler (lifecycle calls, fires, finishes) it returns `false` for
every id — the `runningJobs` set is never populated — even while an
execution is in flight.  Concretely, after a fire of the registered
`sampleSeqJob` is dispatched (an execution handed off, the entry's
`runningCount` at 1), `isJobRunning "job-1"` still returns `false`, so
the controller's AlreadyRunning rejection is unreachable. -/
theorem isJobRunning_always_false :
    (∀ (store : String → Option CronJob) (st : SchedulerState)
        (ps : List PendingExec) (id : String),
      SchedulerReach store st ps → isJobRunning st id = false)
    ∧ (executeJob sampleStore sampleState "job-1" 5 false).pending
        = some ⟨"job-1", sampleSeqJob, false⟩
    ∧ (lookupEntry (executeJob sampleStore sampleState "job-1" 5
          false).state.jobRegistry "job-1").map (fun e => e.runningCount)
        = some 1
    ∧ isJobRunning (executeJob sampleStore sampleState "job-1" 5
          false).state "job-1" = false := by
  refine ⟨?_, by decide, by decide, by decide⟩
  intro store st ps id h
  unfold isJobRunning
  rw [schedulerReach_runningJobs_empty h]
  rfl

/-- C5 witness: the theorem applied to the reachable state in which one
execution of `sampleSeqJob` has been dispatched and is in flight. -/
theorem isJobRunning_always_false_witness :
    isJobRunning (executeJob sampleStore sampleState "job-1" 5 false).state
      "job-1" = false := by
  have hreg : (registerJob ⟨[], []⟩ sampleSeqJob true).1 = sampleState := by
    decide
  have h0 : SchedulerReach sampleStore sampleState [] := by
    have h := @SchedulerReach.register sampleStore ⟨[], []⟩ []
      sampleSeqJob true SchedulerReach.empty
    rwa [hreg] at h
  exact isJobRunning_always_false.1 sampleStore _ _ "job-1"
    (SchedulerReach.fire sampleState [] "job-1" 5 false h0)

/-- Case analysis of one dispatch: a fire either leaves the state
unchanged with nothing handed off (no entry / inactive / gated), removes
the entry (job missing from the store), or — when the gate passes —
increments the entry's `runningCount`, hands off one execution, and
persists the new counter. -/
theorem executeJob_cases (store : String → Option CronJob)
    (st : SchedulerState) (fid : String) (now : Nat) (manual : Bool) :
    executeJob store st fid now manual = ⟨st, none, []⟩
    ∨ executeJob store st fid now manual = ⟨removeJob st fid, none, []⟩
    ∨ (∃ entry job,
        lookupEntry st.jobRegistry fid = some entry
        ∧ store fid = some job
        ∧ job.isActive = true
        ∧ (match job.executionMode with
            | .SEQUENTIAL => entry.runningCount ≤ 0
            | .PARALLEL => entry.runningCount < job.maxConcurrent)
        ∧ executeJob store st fid now manual
          = ⟨{ st with
                jobRegistry := setEntry st.jobRegistry fid
                  { entry with
                    runningCount := entry.runningCount + 1,
                    status := .running,
                    lastRun := some now } },
             some ⟨fid, job, manual⟩,
             [(fid, entry.runningCount + 1)]⟩) := by
  unfold executeJob
  rcases he : lookupEntry st.jobRegistry fid with _ | entry
  · left; rfl
  · rcases hs : store fid with _ | job
    · right; left; rfl
    · dsimp only
      by_cases ha : job.isActive = true
      · rw [ha]
        rcases hm : job.executionMode with _ | _
        · by_cases hg : entry.runningCount > 0
          · left
            simp [hg]
          · right; right
            refine ⟨entry, job, rfl, rfl, ha, ?_, ?_⟩
            · rw [hm]; omega
            · simp [hg]
        · by_cases hg : entry.runningCount ≥ job.maxConcurrent
          · left
            simp [hg]
          · right; right
            refine ⟨entry, job, rfl, rfl, ha, ?_, ?_⟩
            · rw [hm]; omega
            · simp [hg]
      · left
        have ha' : job.isActive = false := by
          revert ha; cases job.isActive <;> simp
        simp [ha']

/-- The per-job invariant behind C3, by induction over steady-state
traces: every registered entry's `runningCount` equals the number of
in-flight executions of that job, and respects the gate bound of the
stored job configuration. -/
theorem dispatchTrace_inv {store : String → Option CronJob}
    {st : SchedulerState} {ps : List PendingExec}
    (h : DispatchTrace store st ps) :
    ∀ id e, lookupEntry st.jobRegistry id = some e →
      e.runningCount = (pendingCountFor ps id : Int)
      ∧ (∀ job, store id = some job →
          (job.executionMode = .SEQUENTIAL → e.runningCount ≤ 1)
          ∧ (job.executionMode = .PARALLEL →
              e.runningCount ≤ max job.maxConcurrent 0)) := by
  induction h with
  | init st h0 =>
    intro id e he
    rw [h0 id e he]
    refine ⟨by simp [pendingCountFor], ?_⟩
    intro job _
    exact ⟨fun _ => by decide, fun _ => le_max_of_le_right (by decide)⟩
  | fire st ps fid now manual hd ih =>
    intro id e he
    rcases executeJob_cases store st fid now manual with hx | hx | hx
    · rw [hx] at he ⊢
      simpa using ih id e he
    · rw [hx] at he ⊢
      by_cases hid : id = fid
      · subst hid
        rw [lookupEntry_removeJob_self] at he
        cases he
      · rw [lookupEntry_removeJob_ne st fid id hid] at he
        simpa using ih id e he
    · obtain ⟨entry, job, he0, hs0, hact, hgate, hx⟩ := hx
      rw [hx] at he ⊢
      by_cases hid : id = fid
      · subst hid
        rw [lookupEntry_setEntry_self _ _ _ (by rw [he0]; rfl)] at he
        obtain rfl := Option.some.inj he
        obtain ⟨ihc, ihb⟩ := ih id entry he0
        constructor
        · simp only [pendingCountFor, List.countP_append, List.countP_cons,
            List.countP_nil]
          simp only [pendingCountFor] at ihc
          simp
          omega
        · intro job' hs'
          rw [hs0] at hs'
          obtain rfl := Option.some.inj hs'
          have hnn : (0 : Int) ≤ entry.runningCount := by
            rw [ihc]; exact Int.ofNat_nonneg _
          constructor
          · intro hmode
            rw [hmode] at hgate
            simp only at hgate
            dsimp only
            omega
          · intro hmode
            rw [hmode] at hgate
            simp only at hgate
            have := le_max_left job.maxConcurrent 0
            dsimp only
            omega
      · rw [lookupEntry_setEntry_ne _ _ _ _ hid] at he
        obtain ⟨ihc, ihb⟩ := ih id e he
        refine ⟨?_, ihb⟩
        rw [ihc]
        simp only [pendingCountFor, List.countP_append, List.countP_cons,
          List.countP_nil]
        have hfid : (fid == id) = false := by
          simp only [beq_eq_false_iff_ne, ne_eq]
          exact fun hc => hid hc.symm
        simp [hfid]
  | finish st ps₁ ps₂ p hd ih =>
    intro id e he
    unfold finalizeExecution at he
    rcases hf : lookupEntry st.jobRegistry p.jobId with _ | entry
    · rw [hf] at he
      obtain ⟨ihc, ihb⟩ := ih id e he
      refine ⟨?_, ihb⟩
      rw [ihc]
      by_cases hid : id = p.jobId
      · subst hid
        rw [he] at hf
        cases hf
      · simp only [pendingCountFor, List.countP_append, List.countP_cons]
        have : (p.jobId == id) = false := by
          simp only [beq_eq_false_iff_ne, ne_eq]
          exact fun hc => hid hc.symm
        simp [this]
    · rw [hf] at he
      dsimp only at he
      by_cases hid : id = p.jobId
      · subst hid
        rw [lookupEntry_setEntry_self _ _ _ (by rw [hf]; rfl)] at he
        obtain rfl := Option.some.inj he
        obtain ⟨ihc, ihb⟩ := ih p.jobId entry hf
        have hcnt : pendingCountFor (ps₁ ++ p :: ps₂) p.jobId
            = pendingCountFor (ps₁ ++ ps₂) p.jobId + 1 := by
          simp [pendingCountFor, List.countP_append, List.countP_cons]
          omega
        constructor
        · rw [hcnt] at ihc
          dsimp only
          omega
        · intro job hs'
          obtain ⟨hseq, hpar⟩ := ihb job hs'
          exact ⟨fun hm => by have := hseq hm; dsimp only; omega,
            fun hm => by have := hpar hm; dsimp only; omega⟩
      · rw [lookupEntry_setEntry_ne _ _ _ _ hid] at he
        obtain ⟨ihc, ihb⟩ := ih id e he
        refine ⟨?_, ihb⟩
        rw [ihc]
        simp only [pendingCountFor, List.countP_append, List.countP_cons]
        have : (p.jobId == id) = false := by
          simp only [beq_eq_false_iff_ne, ne_eq]
          exact fun hc => hid hc.symm
        simp [this]

/-- C3.  At every quiescent point of a steady-state trace, every
registered entry satisfies `0 ≤ runningCount`, `runningCount` equals the
number of in-flight executions of the job (the finalizer decrements
exactly once per increment), and `runningCount ≤ 1` in sequential mode
resp. `runningCount ≤ maxConcurrent` in parallel mode (for the
configured `maxConcurrent ≥ 1`); moreover a gated fire — sequential with
`runningCount > 0`, parallel with `runningCount ≥ maxConcurrent` — is
skipped outright: unchanged state, no execution handed off, no store
write, and hence no log; and one finalizer run decrements the entry's
counter by exactly one. -/
theorem running_count_invariant :
    (∀ (store : String → Option CronJob) (st : SchedulerState)
        (ps : List PendingExec), DispatchTrace store st ps →
      ∀ id e, lookupEntry st.jobRegistry id = some e →
        0 ≤ e.runningCount
        ∧ e.runningCount = (pendingCountFor ps id : Int)
        ∧ (∀ job, store id = some job →
            (job.executionMode = .SEQUENTIAL → e.runningCount ≤ 1)
            ∧ (job.executionMode = .PARALLEL → 1 ≤ job.maxConcurrent →
                e.runningCount ≤ job.maxConcurrent)))
    ∧ (∀ (store : String → Option CronJob) (st : SchedulerState)
        (id : String) (now : Nat) (manual : Bool) (e : JobRegEntry)
        (job : CronJob),
        lookupEntry st.jobRegistry id = some e →
        store id = some job → job.isActive = true →
        (job.executionMode = .SEQUENTIAL → 0 < e.runningCount →
          executeJob store st id now manual = ⟨st, none, []⟩)
        ∧ (job.executionMode = .PARALLEL →
            job.maxConcurrent ≤ e.runningCount →
          executeJob store st id now manual = ⟨st, none, []⟩))
    ∧ (∀ (st : SchedulerState) (p : PendingExec) (e : JobRegEntry),
        lookupEntry st.jobRegistry p.jobId = some e →
        (lookupEntry (finalizeExecution st p).1.jobRegistry p.jobId).map
            (fun x => x.runningCount)
          = some (e.runningCount - 1)) := by
  refine ⟨?_, ?_, ?_⟩
  · intro store st ps h id e he
    obtain ⟨hc, hb⟩ := dispatchTrace_inv h id e he
    refine ⟨by rw [hc]; exact Int.ofNat_nonneg _, hc, ?_⟩
    intro job hs
    obtain ⟨hseq, hpar⟩ := hb job hs
    refine ⟨hseq, ?_⟩
    intro hm hmc
    have := hpar hm
    omega
  · intro store st id now manual e job he hs hact
    constructor
    · intro hm hrc
      simp [executeJob, he, hs, hact, hm, hrc]
    · intro hm hrc
      simp [executeJob, he, hs, hact, hm, hrc]
  · intro st p e he
    unfold finalizeExecution
    rw [he]
    dsimp only
    rw [lookupEntry_setEntry_self _ _ _ (by rw [he]; rfl)]
    rfl

/-- C3 witness: the invariant applied to the trace that registers
`sampleSeqJob` quiescent, and the gate applied to the busy sequential
state. -/
theorem running_count_invariant_witness :
    (0 ≤ sampleEntry.runningCount
      ∧ sampleEntry.runningCount = (pendingCountFor [] "job-1" : Int))
    ∧ executeJob sampleStore sampleBusyState "job-1" 7 false
      = ⟨sampleBusyState, none, []⟩ := by
  constructor
  · have h0 : DispatchTrace sampleStore sampleState [] := by
      apply DispatchTrace.init
      intro id e he
      simp only [sampleState, lookupEntry] at he
      rw [List.find?_cons] at he
      cases hq : (("job-1", sampleEntry).1 == id) with
      | false =>
        rw [hq] at he
        simp at he
      | true =>
        rw [hq] at he
        simp only [Option.map_some'] at he
        obtain rfl := Option.some.inj he
        decide
    have h := running_count_invariant.1 sampleStore sampleState [] h0
      "job-1" sampleEntry (by decide)
    exact ⟨h.1, h.2.1⟩
  · exact ((running_count_invariant.2.1 sampleStore sampleBusyState "job-1"
      7 false sampleBusyEntry sampleSeqJob (by decide) rfl rfl).1 rfl
      (by decide))

/-- The entry written by an accepted trigger is in the updated map. -/
theorem setRateLimitEntry_mem_self (m : List (String × RateLimitEntry))
    (id : String) (e : RateLimitEntry) :
    (id, e) ∈ setRateLimitEntry m id e := by
  unfold setRateLimitEntry
  split
  case isTrue hp =>
    obtain ⟨kv, hkv, hpred⟩ := List.find?_isSome.mp hp
    exact List.mem_map.mpr ⟨kv, hkv, by simp [hpred]⟩
  case isFalse hp =>
    exact List.mem_append.mpr (Or.inr (by simp))

/-- Every binding of `id` in the updated map is the written entry. -/
theorem setRateLimitEntry_mem_unique (m : List (String × RateLimitEntry))
    (id : String) (e e' : RateLimitEntry)
    (h : (id, e') ∈ setRateLimitEntry m id e) : e' = e := by
  unfold setRateLimitEntry at h
  split at h
  case isTrue hp =>
    obtain ⟨kv, hkv, heq⟩ := List.mem_map.mp h
    by_cases hk : (kv.1 == id) = true
    · rw [if_pos hk] at heq
      exact (Prod.mk.injEq .. ▸ heq).2.symm
    · rw [if_neg hk] at heq
      rw [heq] at hk
      simp at hk
  case isFalse hp =>
    rcases List.mem_append.mp h with h | h
    · exfalso
      exact hp (List.find?_isSome.mpr ⟨(id, e'), h, by simp⟩)
    · simp only [List.mem_singleton] at h
      exact (Prod.mk.injEq .. ▸ h).2

/-- C9.  Per-job manual-trigger rate limit: with an entry recorded for
the job, a trigger strictly less than 10 s after the last accepted one is
rejected with a 429 carrying the remaining wait
`(10000 - elapsed) / 1000` seconds, which lies in `(0, 10]`; a trigger
10 s or more after it is accepted.  An accepted trigger resets the
window: the job's only binding in the returned map is
`⟨now, count = 1⟩`.  And when the updated table exceeds 100 entries,
every surviving entry's last trigger is at least `now - 2 × 10000`. -/
theorem manual_trigger_rate_limit (m : List (String × RateLimitEntry))
    (id : String) (now : Nat) :
    (∀ e, (m.find? (fun kv => kv.1 == id)).map Prod.snd = some e →
      ((now - e.lastExecutionTime < RATE_LIMIT_WINDOW) ↔
        ∃ r, checkRateLimit m id now = .error r)
      ∧ (∀ r, checkRateLimit m id now = .error r →
          r.statusCode = 429
          ∧ r.retryAfter = ((RATE_LIMIT_WINDOW : ℚ)
              - ((now - e.lastExecutionTime : Nat) : ℚ)) / 1000
          ∧ (e.lastExecutionTime ≤ now →
              0 < r.retryAfter ∧ r.retryAfter ≤ 10)))
    ∧ (∀ m', checkRateLimit m id now = .ok m' →
        ((id, ⟨now, 1⟩) ∈ m' ∧ ∀ e', (id, e') ∈ m' → e' = ⟨now, 1⟩)
        ∧ (100 < (setRateLimitEntry m id ⟨now, 1⟩).length →
            ∀ kv ∈ m',
              ¬ (kv.2.lastExecutionTime < now - 2 * RATE_LIMIT_WINDOW))) := by
  constructor
  · intro e hfind
    unfold checkRateLimit
    rw [hfind]
    dsimp only
    by_cases hlt : now - e.lastExecutionTime < RATE_LIMIT_WINDOW
    · rw [if_pos hlt]
      refine ⟨⟨fun _ => ⟨_, rfl⟩, fun _ => hlt⟩, ?_⟩
      intro r hr
      obtain rfl := (Except.error.inj hr).symm
      refine ⟨rfl, rfl, ?_⟩
      intro _
      have hcast : ((now - e.lastExecutionTime : Nat) : ℚ) < 10000 := by
        exact_mod_cast hlt
      have hnn : (0 : ℚ) ≤ ((now - e.lastExecutionTime : Nat) : ℚ) := by
        positivity
      constructor
      · apply div_pos _ (by norm_num)
        simp only [RATE_LIMIT_WINDOW]
        push_cast
        linarith
      · rw [div_le_iff₀ (by norm_num)]
        simp only [RATE_LIMIT_WINDOW]
        push_cast
        linarith
    · rw [if_neg hlt]
      exact ⟨⟨fun hc => absurd hc hlt, fun ⟨r, hr⟩ => by cases hr⟩,
        fun r hr => by cases hr⟩
  · intro m' hok
    have hm' : m' = rateLimitCleanup (setRateLimitEntry m id ⟨now, 1⟩) now := by
      unfold checkRateLimit at hok
      rcases hf : (m.find? (fun kv => kv.1 == id)).map Prod.snd with _ | e
      · rw [hf] at hok
        exact (Except.ok.inj hok).symm
      · rw [hf] at hok
        dsimp only at hok
        by_cases hlt : now - e.lastExecutionTime < RATE_LIMIT_WINDOW
        · rw [if_pos hlt] at hok
          cases hok
        · rw [if_neg hlt] at hok
          exact (Except.ok.inj hok).symm
    subst hm'
    unfold rateLimitCleanup
    constructor
    · split
      case isTrue hlen =>
        constructor
        · apply List.mem_filter.mpr
          refine ⟨setRateLimitEntry_mem_self m id _, ?_⟩
          simp only [Bool.not_eq_true', decide_eq_false_iff_not]
          omega
        · intro e' he'
          exact setRateLimitEntry_mem_unique m id _ e'
            (List.mem_filter.mp he').1
      case isFalse hlen =>
        exact ⟨setRateLimitEntry_mem_self m id _,
          fun e' he' => setRateLimitEntry_mem_unique m id _ e' he'⟩
    · intro hlen kv hkv
      rw [if_pos hlen] at hkv
      have := (List.mem_filter.mp hkv).2
      simp only [Bool.not_eq_true', decide_eq_false_iff_not] at this
      exact this

/-- C9 witness: a second trigger for the same job 5 s after the first is
rejected with 429 and `retryAfter = 5 ∈ (0, 10]`. -/
theorem manual_trigger_rate_limit_witness :
    ∃ r, checkRateLimit [("job-1", ⟨0, 1⟩)] "job-1" 5000 = .error r
      ∧ r.statusCode = 429 ∧ 0 < r.retryAfter ∧ r.retryAfter ≤ 10 := by
  have h := (manual_trigger_rate_limit [("job-1", ⟨0, 1⟩)] "job-1" 5000).1
    ⟨0, 1⟩ (by decide)
  obtain ⟨r, hr⟩ := h.1.mp (by decide)
  have hb := h.2 r hr
  exact ⟨r, hr, hb.1, (hb.2.2 (by decide)).1, (hb.2.2 (by decide)).2⟩

/-- C10.  A manual trigger resolves after the synchronous dispatch part
(gate check, increment, `currentRunning` persist): the dispatch hands the
HTTP execution off without awaiting it (the `.catch` discards any
rejection, so `executeJob` returns no `ExecutionResult`), and the
controller answers 200 with a synthesized `'success'` result whose only
content is the controller-side elapsed time — identical whether the
dispatch handed off an execution or was gated away, and independent of
the network, which can later fail the actual request (second
conjunct). -/
theorem manual_trigger_fire_and_forget
    (store : String → Option CronJob) (st : SchedulerState)
    (m m' : List (String × RateLimitEntry)) (id : String)
    (tStart tDispatch tEnd : Nat) (job : CronJob)
    (hrl : checkRateLimit m id tStart = .ok m')
    (hs : store id = some job) (hact : job.isActive = true)
    (hrun : isJobRunning st id = false) :
    triggerJob store st m id tStart tDispatch tEnd
      = .ok
        ({ jobId := job.id, jobName := job.name,
           executionResult :=
             { status := .success, responseCode := none,
               responseTime := tEnd - tStart, responseBody := none,
               errorMessage := none, retryCount := none },
           triggeredAt := tEnd, message := "Job executed successfully" },
         (executeJobManually store st id tDispatch).state, m',
         (executeJobManually store st id tDispatch).pending)
    ∧ (executeRequest envNetFail true true tDispatch).result.status
        = .failure := by
  constructor
  · unfold triggerJob
    rw [hrl, hs]
    dsimp only
    rw [hact, hrun]
    rfl
  · rfl

/-- C10 witness: a manual trigger of the busy sequential job is gated
away (no execution handed off, state unchanged), yet the endpoint still
answers 200 with the synthesized success result. -/
theorem manual_trigger_fire_and_forget_witness :
    triggerJob sampleStore sampleBusyState [] "job-1" 20000 20005 20012
      = .ok
        ({ jobId := "job-1", jobName := "Job One",
           executionResult :=
             { status := .success, responseCode := none,
               responseTime := 12, responseBody := none,
               errorMessage := none, retryCount := none },
           triggeredAt := 20012, message := "Job executed successfully" },
         sampleBusyState, [("job-1", ⟨20000, 1⟩)], none) := by
  have h := (manual_trigger_fire_and_forget sampleStore sampleBusyState []
    [("job-1", ⟨20000, 1⟩)] "job-1" 20000 20005 20012 sampleSeqJob
    rfl rfl rfl rfl).1
  rw [h]
  rfl
